import Mathlib

/-!
# Shallow embedding of `DataCreator.py`

The program is a two-node LangGraph pipeline over a Streamlit front end:

* `synthesize_data` sends a fixed system prompt plus the latest user request
  to an LLM, parses the textual response as JSON, wraps a lone JSON object in
  a one-element array, and on a parse failure reports an error and uses an
  empty list;
* `manage_db` stores the generated records in a SQLite table whose name is
  `table_<count of existing tables + 1>`, replacing a table of that name if
  one exists, or warns and skips the write when the record set is empty.

External boundaries are modelled explicitly:

* the LLM call together with `json.loads` on its response text is a function
  `String → String → Except Unit Json` (system prompt, user message ↦ parse
  outcome of the response text); `Except.error ()` is `json.JSONDecodeError`;
* the SQLite database is an association list from table names to row lists;
  `inspect(engine).get_table_names()` is projection of the names and
  `df.to_sql(name, if_exists := "replace")` replaces or appends a table;
* `pd.DataFrame(data)` succeeds on a Python list (rows are kept verbatim)
  and raises `ValueError` on a bare scalar or string, modelled as `Except`;
* Streamlit's `st.error` / `st.warning` / `st.success` notifications are
  collected as a list of `UiEvent`s.
-/

/-- A Python value produced by `json.loads`: JSON null, boolean, number,
string, array or object (an object keeps its fields as an ordered
association list, as a Python `dict` preserves insertion order). Numbers are
modelled as integers; no claim depends on float behaviour. -/
inductive Json where
  | null : Json
  | bool (b : Bool) : Json
  | num (n : Int) : Json
  | str (s : String) : Json
  | arr (elems : List Json) : Json
  | obj (fields : List (String × Json)) : Json

/-- A user-visible Streamlit notification. -/
inductive UiEvent where
  | error (msg : String) : UiEvent
  | warning (msg : String) : UiEvent
  | success (msg : String) : UiEvent

/-- The pipeline state: `class AppState(TypedDict)` with `messages` and
`generated_data`. The Python annotation says `List[Dict]` but the code can
bind any parsed JSON value to `generated_data` (a scalar passes through
`synthesize_data` unwrapped), so the field holds a `Json`. A list of records
is represented as `Json.arr`. -/
structure AppState where
  messages : List String
  generated_data : Json

/-- The database: tables in creation order, each a name with its stored
rows. `manage_db` only ever uses the count of the names and membership, so
the order of this list is immaterial to every claim. -/
abbrev Db := List (String × List Json)

/-- `inspect(engine).get_table_names()`. -/
def tableNames (db : Db) : List String :=
  db.map Prod.fst

/-- Decimal digits of `n`, least significant first, with explicit fuel so
that the definition is structurally recursive (hence reducible by `rfl` on
concrete inputs). -/
def natDigitsAux : Nat → Nat → List Nat
  | _, 0 => []
  | n, fuel + 1 => if n = 0 then [] else n % 10 :: natDigitsAux (n / 10) fuel

/-- Decimal digits of `n`, least significant first; `natDigits 0 = []`. -/
def natDigits (n : Nat) : List Nat :=
  natDigitsAux n n

/-- The character for one decimal digit. -/
def digitChar : Nat → Char
  | 0 => '0' | 1 => '1' | 2 => '2' | 3 => '3' | 4 => '4'
  | 5 => '5' | 6 => '6' | 7 => '7' | 8 => '8' | 9 => '9'
  | _ => '?'

/-- The character data of the decimal rendering of `n`, most significant
digit first, as Python `str(n)` produces for a nonnegative integer. -/
def natReprData (n : Nat) : List Char :=
  if n = 0 then ['0'] else ((natDigits n).reverse).map digitChar

/-- Decimal rendering of `n`: the embedding of Python `str(n)` as used by
the f-string `f"table_\x7btable_number\x7d"`. -/
def natRepr (n : Nat) : String :=
  String.mk (natReprData n)

/-- The table name `f"table_\x7bn\x7d"`. -/
def tableName (n : Nat) : String :=
  "table_" ++ natRepr n

/-- Python truthiness of a parsed JSON value, as tested by `if not data:`:
`None`, `False`, `0`, `""`, `[]` and `\x7b\x7d` are falsy. -/
def pyFalsy : Json → Bool
  | .null => true
  | .bool b => !b
  | .num n => n == 0
  | .str s => s == ""
  | .arr elems => elems.isEmpty
  | .obj fields => fields.isEmpty

/-- `pd.DataFrame(data)`: a Python list becomes a frame whose rows are the
list elements, kept verbatim; a bare scalar or string raises `ValueError`
("DataFrame constructor not properly called!"), and a scalar-valued dict
raises as well ("If using all scalar values, you must pass an index") —
a dict never reaches this point through the pipeline, since
`synthesize_data` wraps any dict into a one-element list. -/
def dataFrameOfPy : Json → Except Unit (List Json)
  | .arr elems => .ok elems
  | _ => .error ()

/-- `df.to_sql(table_name, con := engine, if_exists := "replace")`: replace
the contents of an existing table of that name, otherwise create it. -/
def writeTable (db : Db) (name : String) (rows : List Json) : Db :=
  if db.any (fun t => t.1 == name) then
    db.map (fun t => if t.1 == name then (name, rows) else t)
  else
    db ++ [(name, rows)]

/-- The rows currently stored under `name`, when such a table exists. -/
def lookupTable (db : Db) (name : String) : Option (List Json) :=
  (db.find? (fun t => t.1 == name)).map Prod.snd

/-- The fixed system instruction sent to the LLM (the module-level
`system_prompt` string). -/
def system_prompt : String :=
  "\nYou are a data generator. Generate realistic e-commerce order data in JSON format.\nReturn ONLY a JSON array with objects containing:\ncustomer_id, order_id, product_name, category, price, quantity, date, state, city, payment_method.\nExample:\n[\n \x7b\"customer_id\": \"IND1001\", \"order_id\": \"ORD1001\", \"product_name\": \"Kurta\", \"category\": \"Clothing\", \"price\":1200,\n  \"quantity\":2, \"date\":\"2024-03-08\", \"state\":\"Maharashtra\", \"city\":\"Mumbai\", \"payment_method\":\"Credit Card\"\x7d\n]\nGenerate exactly 10 records.\n"

/-- Line 43: `state["messages"][-1] if state["messages"] else "Generate
synthetic data"`. -/
def selectUserMsg (messages : List String) : String :=
  messages.getLastD "Generate synthetic data"

/-- The generation node `synthesize_data`. `llm` stands for the composite
external step "call the model with the two messages and run `json.loads` on
`response.content`": it receives the system prompt and the chosen user
message and yields the parse outcome of the response text. On success a
lone JSON object is wrapped in a one-element array; on `JSONDecodeError`
an `st.error` is shown and the record set is `[]`. The returned state keeps
`messages` and carries the new `generated_data`. -/
def synthesize_data (llm : String → String → Except Unit Json)
    (state : AppState) : AppState × List UiEvent :=
  let user_msg := selectUserMsg state.messages
  match llm system_prompt user_msg with
  | .ok parsed =>
    let data : Json :=
      match parsed with
      | .obj fields => .arr [.obj fields]
      | d => d
    ({ messages := state.messages, generated_data := data }, [])
  | .error _ =>
    ({ messages := state.messages, generated_data := .arr [] },
     [.error "AI did not return valid JSON structured data."])

/-- The storage node `manage_db`. If `generated_data` is falsy it warns and
returns the state with the database untouched; otherwise it builds the
DataFrame (which can raise, propagated as `Except.error`), computes the
table name from the current table count, writes the table (replacing any
existing table of that name) and reports success. The state is returned
unchanged in every non-raising path. -/
def manage_db (state : AppState) (db : Db) :
    Except Unit (AppState × Db × List UiEvent) :=
  let data := state.generated_data
  if pyFalsy data then
    .ok (state, db, [.warning "No data to store in DB"])
  else
    match dataFrameOfPy data with
    | .error e => .error e
    | .ok rows =>
      let table_number := (tableNames db).length + 1
      let table_name := tableName table_number
      let db2 := writeTable db table_name rows
      .ok (state, db2,
        [.success ("✅ Stored " ++ natRepr rows.length
          ++ " records in table: " ++ table_name)])

/-- One invocation of the compiled graph: entry point `synthesize`, single
edge to `store`, no branching. The notifications of both nodes are
collected in order; a fault in the storage node aborts the run. -/
def runPipeline (llm : String → String → Except Unit Json)
    (state : AppState) (db : Db) :
    Except Unit (AppState × Db × List UiEvent) :=
  let step1 := synthesize_data llm state
  match manage_db step1.1 db with
  | .ok (s2, db2, evs2) => .ok (s2, db2, step1.2 ++ evs2)
  | .error e => .error e

/-- The Streamlit trigger handler (the `if st.button(...)` block): when the
input text is truthy (non-empty) it is appended to the session history, a
fresh pipeline state is built from the full history and an empty record
list, and the pipeline is invoked. The history is appended before the
pipeline runs, so it survives even a faulting run; with an empty input
nothing happens. -/
def triggerHandler (prompt : String) (history : List String)
    (llm : String → String → Except Unit Json) (db : Db) :
    List String × Except Unit (Db × List UiEvent) :=
  if prompt == "" then
    (history, .ok (db, []))
  else
    let history2 := history ++ [prompt]
    let inputs : AppState := { messages := history2, generated_data := .arr [] }
    match runPipeline llm inputs db with
    | .ok (_, db2, evs) => (history2, .ok (db2, evs))
    | .error e => (history2, .error e)

/-- A sequence of sequential pipeline invocations against an evolving
database, each invocation with its own model behaviour, all sharing one
session history (the history does not influence storage). A fault aborts
the sequence, as it aborts the Streamlit run it occurs in. -/
def runPipelines (llms : List (String → String → Except Unit Json))
    (hist : List String) (db : Db) : Except Unit Db :=
  match llms with
  | [] => .ok db
  | llm :: rest =>
    match runPipeline llm { messages := hist, generated_data := .arr [] } db with
    | .ok (_, db2, _) => runPipelines rest hist db2
    | .error e => .error e

/-- Whether one invocation's storage step performs a write: the model
response parsed to a nonempty array. (Under the responses considered in the
sequential-naming claim — arrays or parse failures — this is exactly the
condition under which `manage_db` reaches `to_sql`.) -/
def performsWrite (hist : List String)
    (llm : String → String → Except Unit Json) : Bool :=
  match llm system_prompt (selectUserMsg hist) with
  | .ok (.arr d) => !d.isEmpty
  | _ => false

/-- How many invocations of the sequence perform a write. -/
def writeCount (hist : List String)
    (llms : List (String → String → Except Unit Json)) : Nat :=
  (llms.filter (performsWrite hist)).length

/-! ## Decimal rendering lemmas -/

/-- The fuel of `natDigitsAux` is irrelevant as long as it dominates `n`. -/
theorem natDigitsAux_fuel (f1 : Nat) : ∀ n f2 : Nat, n ≤ f1 → n ≤ f2 →
    natDigitsAux n f1 = natDigitsAux n f2 := by
  induction f1 with
  | zero =>
    intro n f2 h1 _
    have hn : n = 0 := Nat.le_zero.mp h1
    subst hn
    cases f2 <;> simp [natDigitsAux]
  | succ f ih =>
    intro n f2 h1 h2
    by_cases hn : n = 0
    · subst hn
      cases f2 <;> simp [natDigitsAux]
    · cases f2 with
      | zero => omega
      | succ f2m =>
        have hdiv : n / 10 < n := Nat.div_lt_self (Nat.pos_of_ne_zero hn) (by omega)
        simp only [natDigitsAux, if_neg hn]
        rw [ih (n / 10) f2m (by omega) (by omega)]

/-- Unfolding equation for `natDigits`. -/
theorem natDigits_def (n : Nat) :
    natDigits n = if n = 0 then [] else n % 10 :: natDigits (n / 10) := by
  by_cases hn : n = 0
  · subst hn
    simp [natDigits, natDigitsAux]
  · cases n with
    | zero => exact absurd rfl hn
    | succ m =>
      have hdiv : (m + 1) / 10 < m + 1 := Nat.div_lt_self (by omega) (by omega)
      simp only [natDigits, natDigitsAux, if_neg hn]
      rw [natDigitsAux_fuel m ((m + 1) / 10) ((m + 1) / 10) (by omega) (by omega)]

/-- Only `0` has an empty digit list. -/
theorem natDigits_eq_nil {n : Nat} (h : natDigits n = []) : n = 0 := by
  by_contra hn
  rw [natDigits_def, if_neg hn] at h
  exact List.cons_ne_nil _ _ h

/-- The digit list determines the number. -/
theorem natDigits_inj : ∀ m n : Nat, natDigits m = natDigits n → m = n := by
  intro m
  induction m using Nat.strong_induction_on with
  | _ m ih =>
    intro n h
    by_cases hm : m = 0
    · subst hm
      have hn : natDigits n = [] := by rw [← h]; rfl
      exact (natDigits_eq_nil hn).symm
    · by_cases hn : n = 0
      · subst hn
        have hm2 : natDigits m = [] := by rw [h]; rfl
        exact absurd (natDigits_eq_nil hm2) hm
      · rw [natDigits_def m, if_neg hm, natDigits_def n, if_neg hn] at h
        have h1 : m % 10 = n % 10 := by
          injection h
        have h2 : natDigits (m / 10) = natDigits (n / 10) := by
          injection h
        have h3 : m / 10 = n / 10 :=
          ih (m / 10) (Nat.div_lt_self (Nat.pos_of_ne_zero hm) (by omega)) _ h2
        omega

/-- Every decimal digit is below `10`. -/
theorem natDigits_lt : ∀ n d : Nat, d ∈ natDigits n → d < 10 := by
  intro n
  induction n using Nat.strong_induction_on with
  | _ n ih =>
    intro d hd
    by_cases hn : n = 0
    · subst hn
      simp [natDigits, natDigitsAux] at hd
    · rw [natDigits_def, if_neg hn] at hd
      rcases List.mem_cons.mp hd with h | h
      · subst h
        exact Nat.mod_lt _ (by omega)
      · exact ih (n / 10) (Nat.div_lt_self (Nat.pos_of_ne_zero hn) (by omega)) d h

/-- `digitChar` is injective on decimal digits. -/
theorem digitChar_inj {a b : Nat} (ha : a < 10) (hb : b < 10)
    (h : digitChar a = digitChar b) : a = b := by
  interval_cases a <;> interval_cases b <;> revert h <;> decide

/-- Mapping `digitChar` over digit lists is injective. -/
theorem mapDigitChar_inj : ∀ l1 l2 : List Nat, (∀ d ∈ l1, d < 10) →
    (∀ d ∈ l2, d < 10) → l1.map digitChar = l2.map digitChar → l1 = l2 := by
  intro l1
  induction l1 with
  | nil =>
    intro l2 _ _ h
    cases l2 with
    | nil => rfl
    | cons b t2 => simp at h
  | cons a t ih =>
    intro l2 h1 h2 h
    cases l2 with
    | nil => simp at h
    | cons b t2 =>
      simp only [List.map_cons, List.cons.injEq] at h
      have ha : a = b :=
        digitChar_inj (h1 a (by simp)) (h2 b (by simp)) h.1
      have ht : t = t2 :=
        ih t2 (fun d hd => h1 d (by simp [hd])) (fun d hd => h2 d (by simp [hd])) h.2
      rw [ha, ht]

/-- The decimal character rendering determines the number. -/
theorem natReprData_inj : ∀ {m n : Nat}, natReprData m = natReprData n → m = n := by
  have key : ∀ n : Nat, n ≠ 0 → natReprData n = ['0'] → False := by
    intro n hn h
    rw [natReprData, if_neg hn] at h
    have h2 : ((natDigits n).reverse).map digitChar = ([0] : List Nat).map digitChar := by
      rw [h]; rfl
    have h3 : (natDigits n).reverse = [0] :=
      mapDigitChar_inj _ _ (fun d hd => natDigits_lt n d (List.mem_reverse.mp hd))
        (by intro d hd; simp at hd; omega) h2
    have h4 : natDigits n = [0] := by
      have := congrArg List.reverse h3
      simpa using this
    rw [natDigits_def, if_neg hn] at h4
    have h5 : n % 10 = 0 := by injection h4
    have h6 : natDigits (n / 10) = [] := by injection h4
    have h7 : n / 10 = 0 := natDigits_eq_nil h6
    omega
  intro m n h
  by_cases hm : m = 0 <;> by_cases hn : n = 0
  · omega
  · subst hm
    have h2 : natReprData n = ['0'] := by rw [← h]; rfl
    exact (key n hn h2).elim
  · subst hn
    have h2 : natReprData m = ['0'] := by rw [h]; rfl
    exact (key m hm h2).elim
  · rw [natReprData, if_neg hm, natReprData, if_neg hn] at h
    have h3 : (natDigits m).reverse = (natDigits n).reverse :=
      mapDigitChar_inj _ _ (fun d hd => natDigits_lt m d (List.mem_reverse.mp hd))
        (fun d hd => natDigits_lt n d (List.mem_reverse.mp hd)) h
    have h4 : natDigits m = natDigits n := by
      have := congrArg List.reverse h3
      simpa using this
    exact natDigits_inj m n h4

/-- `String.append` concatenates the character data. -/
theorem string_data_append (a b : String) : (a ++ b).data = a.data ++ b.data := rfl

/-- Distinct ordinals give distinct table names. -/
theorem tableName_inj {m n : Nat} (h : tableName m = tableName n) : m = n := by
  have h2 := congrArg String.data h
  rw [tableName, tableName, string_data_append, string_data_append] at h2
  have h3 : (natRepr m).data = (natRepr n).data := List.append_cancel_left h2
  exact natReprData_inj h3

/-! ## Database lemmas -/

/-- `get_table_names` lists one name per table. -/
theorem tableNames_length (db : Db) : (tableNames db).length = db.length := by
  simp [tableNames]

/-- A failed `any` scan means the name is absent. -/
theorem not_any_notMem {db : Db} {name : String}
    (h : ¬ db.any (fun t => t.1 == name) = true) : name ∉ tableNames db := by
  intro hmem
  rcases List.mem_map.mp hmem with ⟨t, ht, he⟩
  exact h (List.any_eq_true.mpr ⟨t, ht, beq_iff_eq.mpr he⟩)

/-- Writing under a fresh name appends the table. -/
theorem writeTable_fresh {db : Db} {name : String} (rows : List Json)
    (h : name ∉ tableNames db) : writeTable db name rows = db ++ [(name, rows)] := by
  have hany : db.any (fun t => t.1 == name) = false := by
    rw [List.any_eq_false]
    intro t ht
    simp only [beq_iff_eq]
    intro he
    exact h (List.mem_map.mpr ⟨t, ht, he⟩)
  unfold writeTable
  rw [hany]
  simp

/-- A fresh write extends the name list by the new name. -/
theorem tableNames_writeTable_fresh {db : Db} {name : String} (rows : List Json)
    (h : name ∉ tableNames db) :
    tableNames (writeTable db name rows) = tableNames db ++ [name] := by
  rw [writeTable_fresh rows h]
  simp [tableNames]

/-- When some table matches the name, the replacement map puts the new rows
at the position found first. -/
theorem find?_replace {name : String} {rows : List Json} :
    ∀ db : Db, db.any (fun t => t.1 == name) = true →
    (db.map (fun t => if t.1 == name then (name, rows) else t)).find?
      (fun t => t.1 == name) = some (name, rows) := by
  intro db
  induction db with
  | nil => intro h; simp at h
  | cons hd tl ih =>
    intro h
    by_cases hh : hd.1 = name
    · have hb : (hd.1 == name) = true := beq_iff_eq.mpr hh
      simp only [List.map_cons, hb, if_true]
      rw [List.find?_cons_of_pos]
      simp
    · have hb : (hd.1 == name) = false := beq_eq_false_iff_ne.mpr hh
      have h2 : tl.any (fun t => t.1 == name) = true := by
        rw [List.any_cons, hb] at h
        simpa using h
      simp only [List.map_cons, hb, if_false]
      rw [List.find?_cons_of_neg]
      · exact ih h2
      · simp [hb]

/-- Appending a fresh table makes it the one found under its name. -/
theorem find?_append_fresh {name : String} {rows : List Json} :
    ∀ db : Db, name ∉ tableNames db →
    (db ++ [(name, rows)]).find? (fun t => t.1 == name) = some (name, rows) := by
  intro db
  induction db with
  | nil =>
    intro _
    rw [List.nil_append, List.find?_cons_of_pos]
    simp
  | cons hd tl ih =>
    intro h
    have hh : hd.1 ≠ name := by
      intro he
      exact h (List.mem_map.mpr ⟨hd, List.mem_cons_self hd tl, he⟩)
    rw [List.cons_append, List.find?_cons_of_neg]
    · exact ih (fun hm => h (List.mem_cons_of_mem _ hm))
    · simp [hh]

/-- After a write, the written name holds exactly the new rows. -/
theorem lookupTable_writeTable (db : Db) (name : String) (rows : List Json) :
    lookupTable (writeTable db name rows) name = some rows := by
  unfold lookupTable writeTable
  by_cases hany : db.any (fun t => t.1 == name) = true
  · rw [if_pos hany, find?_replace db hany]
    rfl
  · rw [if_neg hany, find?_append_fresh db (not_any_notMem hany)]
    rfl

/-- Every entry carrying the written name holds the new rows: no prior row
stored under that name survives the write. -/
theorem writeTable_entries {db : Db} {name : String} {rows : List Json} :
    ∀ t ∈ writeTable db name rows, t.1 = name → t.2 = rows := by
  intro t ht he
  unfold writeTable at ht
  by_cases hany : db.any (fun t => t.1 == name) = true
  · rw [if_pos hany] at ht
    rcases List.mem_map.mp ht with ⟨s, hs, hf⟩
    subst hf
    by_cases hh : s.1 = name
    · simp [beq_iff_eq.mpr hh]
    · rw [if_neg (by simp [hh])] at he ⊢
      exact absurd he hh
  · rw [if_neg hany] at ht
    rcases List.mem_append.mp ht with hmem | hmem
    · exact absurd (List.mem_map.mpr ⟨t, hmem, he⟩) (not_any_notMem hany)
    · rcases List.mem_singleton.mp hmem with rfl
      rfl

/-! ## Node-level lemmas -/

/-- On a nonempty record list, `manage_db` writes the rows verbatim to the
table named after the current table count plus one, and reports success. -/
theorem manage_db_write (s : AppState) (db : Db) (a : Json) (t : List Json)
    (hdata : s.generated_data = .arr (a :: t)) :
    manage_db s db = .ok (s, writeTable db (tableName (db.length + 1)) (a :: t),
      [.success ("✅ Stored " ++ natRepr (a :: t).length ++ " records in table: "
        ++ tableName (db.length + 1))]) := by
  unfold manage_db
  rw [hdata]
  simp [pyFalsy, dataFrameOfPy, tableNames_length]

/-- A pipeline invocation whose response parses to a nonempty array writes
the rows verbatim to the next-numbered table. -/
theorem runPipeline_write (llm : String → String → Except Unit Json)
    (s : AppState) (db : Db) (a : Json) (t : List Json)
    (hparse : llm system_prompt (selectUserMsg s.messages) = .ok (.arr (a :: t))) :
    runPipeline llm s db =
      .ok ({ messages := s.messages, generated_data := .arr (a :: t) },
        writeTable db (tableName (db.length + 1)) (a :: t),
        [.success ("✅ Stored " ++ natRepr (a :: t).length ++ " records in table: "
          ++ tableName (db.length + 1))]) := by
  have hsynth : synthesize_data llm s =
      ({ messages := s.messages, generated_data := .arr (a :: t) }, []) := by
    simp only [synthesize_data]
    rw [hparse]
  unfold runPipeline
  rw [hsynth]
  simp only [manage_db_write { messages := s.messages, generated_data := Json.arr (a :: t) }
    db a t rfl, List.nil_append]

/-- A pipeline invocation whose response parses to the empty array warns
and leaves the database untouched. -/
theorem runPipeline_empty_arr (llm : String → String → Except Unit Json)
    (s : AppState) (db : Db)
    (hparse : llm system_prompt (selectUserMsg s.messages) = .ok (.arr [])) :
    runPipeline llm s db =
      .ok ({ messages := s.messages, generated_data := .arr [] }, db,
        [.warning "No data to store in DB"]) := by
  have hsynth : synthesize_data llm s =
      ({ messages := s.messages, generated_data := .arr [] }, []) := by
    simp only [synthesize_data]
    rw [hparse]
  unfold runPipeline
  rw [hsynth]
  rfl

/-- A pipeline invocation whose response is not valid JSON reports the
error, then warns, and leaves the database untouched. -/
theorem runPipeline_parse_error (llm : String → String → Except Unit Json)
    (s : AppState) (db : Db)
    (hparse : llm system_prompt (selectUserMsg s.messages) = .error ()) :
    runPipeline llm s db =
      .ok ({ messages := s.messages, generated_data := .arr [] }, db,
        [.error "AI did not return valid JSON structured data.",
         .warning "No data to store in DB"]) := by
  have hsynth : synthesize_data llm s =
      ({ messages := s.messages, generated_data := .arr [] },
        [.error "AI did not return valid JSON structured data."]) := by
    simp only [synthesize_data]
    rw [hparse]
  unfold runPipeline
  rw [hsynth]
  rfl

/-! ## Claims -/

/-- C1: for every model response whose text parses as a JSON array, the
record set passed to storage (`generated_data`) is the parsed array
element-for-element, and the rows written to the database are exactly that
array, with no transformation, filtering or field coercion by the pipeline.
The empty array takes the warning path and writes nothing (see the
empty-array theorem), so the written-rows part is stated for the arrays
that reach a write. -/
theorem claim1_array_verbatim (llm : String → String → Except Unit Json)
    (s : AppState) (db : Db) (xs : List Json)
    (hparse : llm system_prompt (selectUserMsg s.messages) = .ok (.arr xs))
    (hne : xs ≠ []) :
    synthesize_data llm s = ({ messages := s.messages, generated_data := .arr xs }, []) ∧
    runPipeline llm s db =
      .ok ({ messages := s.messages, generated_data := .arr xs },
        writeTable db (tableName (db.length + 1)) xs,
        [.success ("✅ Stored " ++ natRepr xs.length ++ " records in table: "
          ++ tableName (db.length + 1))]) ∧
    lookupTable (writeTable db (tableName (db.length + 1)) xs)
      (tableName (db.length + 1)) = some xs := by
  have hsynth : synthesize_data llm s =
      ({ messages := s.messages, generated_data := .arr xs }, []) := by
    simp only [synthesize_data]
    rw [hparse]
  refine ⟨hsynth, ?_, lookupTable_writeTable _ _ _⟩
  obtain ⟨a, t, rfl⟩ : ∃ a t, xs = a :: t := by
    cases xs with
    | nil => exact absurd rfl hne
    | cons a t => exact ⟨a, t, rfl⟩
  unfold runPipeline
  rw [hsynth]
  simp only [manage_db_write { messages := s.messages, generated_data := Json.arr (a :: t) }
    db a t rfl, List.nil_append]

/-- C1 witness: a concrete two-record array response is stored verbatim. -/
theorem claim1_array_verbatim_witness :
    synthesize_data (fun _ _ => .ok (.arr [Json.num 7, Json.str "x"]))
        { messages := ["req"], generated_data := .arr [] } =
      ({ messages := ["req"], generated_data := .arr [Json.num 7, Json.str "x"] }, []) ∧
    runPipeline (fun _ _ => .ok (.arr [Json.num 7, Json.str "x"]))
        { messages := ["req"], generated_data := .arr [] } [] =
      .ok ({ messages := ["req"], generated_data := .arr [Json.num 7, Json.str "x"] },
        writeTable [] (tableName 1) [Json.num 7, Json.str "x"],
        [.success ("✅ Stored " ++ natRepr 2 ++ " records in table: " ++ tableName 1)]) ∧
    lookupTable (writeTable [] (tableName 1) [Json.num 7, Json.str "x"]) (tableName 1) =
      some [Json.num 7, Json.str "x"] :=
  claim1_array_verbatim _ _ [] [Json.num 7, Json.str "x"] rfl (List.cons_ne_nil _ _)

/-- C3: for every model response whose text is not valid JSON, the
generation step reports the parse error and yields an empty record set, the
pipeline continues into the storage step, which emits its warning, and the
database is unchanged — no table is written. -/
theorem claim3_parse_failure (llm : String → String → Except Unit Json)
    (s : AppState) (db : Db)
    (hparse : llm system_prompt (selectUserMsg s.messages) = .error ()) :
    runPipeline llm s db =
      .ok ({ messages := s.messages, generated_data := .arr [] }, db,
        [.error "AI did not return valid JSON structured data.",
         .warning "No data to store in DB"]) := by
  have hsynth : synthesize_data llm s =
      ({ messages := s.messages, generated_data := .arr [] },
        [.error "AI did not return valid JSON structured data."]) := by
    simp only [synthesize_data]
    rw [hparse]
  unfold runPipeline
  rw [hsynth]
  rfl

/-- C3 witness: a concrete non-JSON response yields the error, the warning,
and an untouched database. -/
theorem claim3_parse_failure_witness :
    runPipeline (fun _ _ => .error ()) { messages := [], generated_data := .arr [] }
        [("t", [Json.null])] =
      .ok ({ messages := [], generated_data := .arr [] }, [("t", [Json.null])],
        [.error "AI did not return valid JSON structured data.",
         .warning "No data to store in DB"]) :=
  claim3_parse_failure _ _ _ rfl

/-- C4: a model response parsing to a single JSON object is wrapped into a
one-element array by the generation step, and that one-element array is
exactly what the storage step writes. -/
theorem claim4_object_wrapped (llm : String → String → Except Unit Json)
    (s : AppState) (db : Db) (fields : List (String × Json))
    (hparse : llm system_prompt (selectUserMsg s.messages) = .ok (.obj fields)) :
    synthesize_data llm s =
      ({ messages := s.messages, generated_data := .arr [.obj fields] }, []) ∧
    runPipeline llm s db =
      .ok ({ messages := s.messages, generated_data := .arr [.obj fields] },
        writeTable db (tableName (db.length + 1)) [.obj fields],
        [.success ("✅ Stored " ++ natRepr 1 ++ " records in table: "
          ++ tableName (db.length + 1))]) ∧
    lookupTable (writeTable db (tableName (db.length + 1)) [.obj fields])
      (tableName (db.length + 1)) = some [.obj fields] := by
  have hsynth : synthesize_data llm s =
      ({ messages := s.messages, generated_data := .arr [.obj fields] }, []) := by
    simp only [synthesize_data]
    rw [hparse]
  refine ⟨hsynth, ?_, lookupTable_writeTable _ _ _⟩
  unfold runPipeline
  rw [hsynth]
  simp only [manage_db_write { messages := s.messages, generated_data := Json.arr [Json.obj fields] }
    db (.obj fields) [] rfl, List.nil_append]
  rfl

/-- C4 witness: a concrete lone-object response is stored as one row. -/
theorem claim4_object_wrapped_witness :
    synthesize_data (fun _ _ => .ok (.obj [("a", Json.num 1)]))
        { messages := [], generated_data := .arr [] } =
      ({ messages := [], generated_data := .arr [.obj [("a", Json.num 1)]] }, []) ∧
    runPipeline (fun _ _ => .ok (.obj [("a", Json.num 1)]))
        { messages := [], generated_data := .arr [] } [] =
      .ok ({ messages := [], generated_data := .arr [.obj [("a", Json.num 1)]] },
        writeTable [] (tableName 1) [.obj [("a", Json.num 1)]],
        [.success ("✅ Stored " ++ natRepr 1 ++ " records in table: " ++ tableName 1)]) ∧
    lookupTable (writeTable [] (tableName 1) [.obj [("a", Json.num 1)]]) (tableName 1) =
      some [.obj [("a", Json.num 1)]] :=
  claim4_object_wrapped _ _ [] [("a", Json.num 1)] rfl

/-- C9: the model response with text `5` (valid JSON, neither object nor
array) passes through `synthesize_data` unwrapped and without any error
notification, and since `5` is truthy the storage step reaches
`pd.DataFrame(5)`, which raises an unhandled `ValueError` instead of
warning or recovering. -/
theorem claim9_scalar_fault :
    synthesize_data (fun _ _ => .ok (Json.num 5))
        { messages := [], generated_data := .arr [] } =
      ({ messages := [], generated_data := Json.num 5 }, []) ∧
    manage_db { messages := [], generated_data := Json.num 5 } [] = .error () ∧
    runPipeline (fun _ _ => .ok (Json.num 5))
        { messages := [], generated_data := .arr [] } [] = .error () :=
  ⟨rfl, rfl, rfl⟩

/-- C10: the model response with text `[]` (valid JSON, an empty array)
produces no error notification and an empty record set; the storage step
then emits the no-data warning and writes nothing — the warning path is
reachable from valid-but-empty output, not only from parse failures. -/
theorem claim10_empty_array :
    runPipeline (fun _ _ => .ok (Json.arr []))
        { messages := [], generated_data := .arr [] } [("table_1", [Json.null])] =
      .ok ({ messages := [], generated_data := .arr [] }, [("table_1", [Json.null])],
        [.warning "No data to store in DB"]) :=
  rfl

/-- C5: when the computed table name already exists, the write replaces the
table's full contents: afterwards the name holds exactly the new record set
and every entry stored under that name carries the new rows, so no
previously stored row of that name persists. -/
theorem claim5_replace_contents (s : AppState) (db : Db) (a : Json) (t : List Json)
    (hdata : s.generated_data = .arr (a :: t))
    (_hexists : tableName (db.length + 1) ∈ tableNames db) :
    manage_db s db = .ok (s, writeTable db (tableName (db.length + 1)) (a :: t),
      [.success ("✅ Stored " ++ natRepr (a :: t).length ++ " records in table: "
        ++ tableName (db.length + 1))]) ∧
    lookupTable (writeTable db (tableName (db.length + 1)) (a :: t))
      (tableName (db.length + 1)) = some (a :: t) ∧
    ∀ tb ∈ writeTable db (tableName (db.length + 1)) (a :: t),
      tb.1 = tableName (db.length + 1) → tb.2 = a :: t :=
  ⟨manage_db_write s db a t hdata, lookupTable_writeTable _ _ _,
    fun tb htb => writeTable_entries tb htb⟩

/-- C5 witness: writing into a database whose single table is already named
`table_2` replaces that table's rows with the new record set. -/
theorem claim5_replace_contents_witness :
    manage_db { messages := [], generated_data := Json.arr [Json.null] }
        [("table_2", [Json.bool true])] =
      .ok ({ messages := [], generated_data := Json.arr [Json.null] },
        [("table_2", [Json.null])],
        [.success "✅ Stored 1 records in table: table_2"]) ∧
    lookupTable [("table_2", [Json.null])] "table_2" = some [Json.null] :=
  ⟨(claim5_replace_contents { messages := [], generated_data := Json.arr [Json.null] }
      [("table_2", [Json.bool true])] Json.null [] rfl (by decide)).1,
   (claim5_replace_contents { messages := [], generated_data := Json.arr [Json.null] }
      [("table_2", [Json.bool true])] Json.null [] rfl (by decide)).2.1⟩

/-- C6 counterexample: the claim says the history grows by exactly one
entry per trigger action, but a trigger with an empty input field appends
nothing (`if prompt:` fails), so after a trigger on history `["a"]` the
history still has one entry, not two. -/
theorem claim6_counterexample :
    ¬ ((triggerHandler "" ["a"] (fun _ _ => Except.error ()) []).1.length =
        (["a"] : List String).length + 1) := by
  decide

/-- C6 amended: the session history grows by exactly one entry — the
current content of the text input — on every trigger whose input is
non-empty, is unchanged by a trigger with an empty input, and never
shrinks; it persists even across a faulting pipeline run because the
append happens before the pipeline is invoked. -/
theorem claim6_amended (prompt : String) (history : List String)
    (llm : String → String → Except Unit Json) (db : Db) :
    (triggerHandler prompt history llm db).1 =
      (if prompt = "" then history else history ++ [prompt]) ∧
    ∃ tl, (triggerHandler prompt history llm db).1 = history ++ tl := by
  unfold triggerHandler
  by_cases h : prompt = ""
  · simp [h]
  · have hb : (prompt == "") = false := beq_eq_false_iff_ne.mpr h
    simp only [hb, Bool.false_eq_true, if_false, if_neg h]
    cases runPipeline llm { messages := history ++ [prompt], generated_data := .arr [] } db with
    | ok v => exact ⟨rfl, [prompt], rfl⟩
    | error e => exact ⟨rfl, [prompt], rfl⟩

/-- C7: the generation step selects the last history entry as the user
message when the history is non-empty and the fixed default prompt when it
is empty; and the generation step's outcome depends on the model only
through its response to that selected message, so the choice is a function
of the history alone. -/
theorem claim7_user_message (messages : List String)
    (llm1 llm2 : String → String → Except Unit Json) (s : AppState)
    (hsame : llm1 system_prompt (selectUserMsg s.messages) =
      llm2 system_prompt (selectUserMsg s.messages)) :
    selectUserMsg messages =
      (if h : messages = [] then "Generate synthetic data" else messages.getLast h) ∧
    synthesize_data llm1 s = synthesize_data llm2 s := by
  constructor
  · by_cases h : messages = []
    · subst h
      simp [selectUserMsg]
    · rw [dif_neg h]
      rw [selectUserMsg, List.getLastD_eq_getLast?, List.getLast?_eq_getLast _ h]
      rfl
  · simp only [synthesize_data]
    rw [hsame]

/-- C7 witness: on the concrete history `["a", "b"]` the last entry is
selected, and two models agreeing on that message give one outcome. -/
theorem claim7_user_message_witness :
    selectUserMsg ["a", "b"] =
      (if h : (["a", "b"] : List String) = [] then "Generate synthetic data"
       else (["a", "b"] : List String).getLast h) ∧
    synthesize_data (fun _ _ => Except.error ())
        { messages := ["a", "b"], generated_data := .arr [] } =
      synthesize_data (fun _ _ => Except.error ())
        { messages := ["a", "b"], generated_data := .arr [] } :=
  claim7_user_message ["a", "b"] _ _
    { messages := ["a", "b"], generated_data := .arr [] } rfl

/-- C8: the generation step preserves `messages` (only `generated_data` is
populated), and whenever the storage step returns, it returns its input
state structurally unchanged, whether or not a write occurred. -/
theorem claim8_frame (llm : String → String → Except Unit Json)
    (s : AppState) (db : Db) (out : AppState × Db × List UiEvent)
    (hstore : manage_db s db = .ok out) :
    (synthesize_data llm s).1.messages = s.messages ∧ out.1 = s := by
  constructor
  · simp only [synthesize_data]
    cases llm system_prompt (selectUserMsg s.messages) with
    | ok d => rfl
    | error e => rfl
  · unfold manage_db at hstore
    by_cases hf : pyFalsy s.generated_data = true
    · rw [if_pos hf] at hstore
      injection hstore with h
      rw [← h]
    · rw [if_neg hf] at hstore
      cases hdf : dataFrameOfPy s.generated_data with
      | error e =>
        rw [hdf] at hstore
        exact absurd hstore (by simp)
      | ok rows =>
        rw [hdf] at hstore
        injection hstore with h
        rw [← h]

/-- C8 witness: a concrete warning-path run of the storage step returns the
state unchanged. -/
theorem claim8_frame_witness :
    (synthesize_data (fun _ _ => Except.error ())
      { messages := ["x"], generated_data := .arr [] }).1.messages = ["x"] ∧
    (({ messages := ["x"], generated_data := .arr [] } : AppState), ([] : Db),
      [UiEvent.warning "No data to store in DB"]).1 =
      { messages := ["x"], generated_data := .arr [] } :=
  claim8_frame _ { messages := ["x"], generated_data := .arr [] } [] _ rfl

/-- C2 counterexample: the claim says that starting from a database with
`k` pre-existing tables, the `n`-th writing invocation creates
`table_<k+n>` with strictly monotonic ordinals. Start from one table
(`k = 1`) that happens to be named `table_2`: the first write computes
count `1` and name `table_2`, replacing the existing table instead of
adding one, so the second write again computes count `1` and name
`table_2`. The second write therefore does not create `table_<1+2> =
table_3`, and the produced ordinals (`2`, `2`) are not strictly
monotonic. The record written is an ordinary one-field object
`\x7b"a": 1\x7d`, so both writes are runs `pd.DataFrame`/`to_sql`
perform without fault. -/
theorem claim2_counterexample :
    runPipelines [fun _ _ => Except.ok (Json.arr [Json.obj [("a", Json.num 1)]]),
        fun _ _ => Except.ok (Json.arr [Json.obj [("a", Json.num 1)]])] []
        [("table_2", [Json.obj [("a", Json.num 0)]])] =
      .ok [("table_2", [Json.obj [("a", Json.num 1)]])] ∧
    "table_3" ∉ tableNames [("table_2", [Json.obj [("a", Json.num 1)]])] :=
  ⟨rfl, by decide⟩

/-- C2 amended: under sequential invocations whose responses are JSON
arrays or parse failures, if none of the `k` pre-existing tables is named
`table_<j>` for any `j > k`, then the run succeeds and the `n`-th
invocation whose storage step performs a write creates `table_<k+n>`: the
final name list is the original one followed by `table_<k+1>`, …,
`table_<k+w>` in order, `w` being the number of writing invocations. -/
theorem claim2_amended (hist : List String) :
    ∀ (llms : List (String → String → Except Unit Json)) (db : Db),
    (∀ l ∈ llms, (∃ d, l system_prompt (selectUserMsg hist) = Except.ok (Json.arr d)) ∨
      l system_prompt (selectUserMsg hist) = Except.error ()) →
    (∀ j, db.length < j → tableName j ∉ tableNames db) →
    ∃ db2, runPipelines llms hist db = .ok db2 ∧
      tableNames db2 = tableNames db ++
        (List.range (writeCount hist llms)).map (fun i => tableName (db.length + i + 1)) := by
  intro llms
  induction llms with
  | nil =>
    intro db _ _
    exact ⟨db, rfl, by simp [writeCount]⟩
  | cons llm rest ih =>
    intro db hresp hfresh
    have hrest : ∀ l ∈ rest,
        (∃ d, l system_prompt (selectUserMsg hist) = Except.ok (Json.arr d)) ∨
        l system_prompt (selectUserMsg hist) = Except.error () :=
      fun l hl => hresp l (List.mem_cons_of_mem _ hl)
    rcases hresp llm (List.mem_cons_self _ _) with ⟨d, hd⟩ | herr
    · cases d with
      | nil =>
        have hpipe := runPipeline_empty_arr llm
          { messages := hist, generated_data := Json.arr [] } db hd
        have hrun : runPipelines (llm :: rest) hist db = runPipelines rest hist db := by
          simp only [runPipelines]
          rw [hpipe]
        have hcount : writeCount hist (llm :: rest) = writeCount hist rest := by
          simp [writeCount, List.filter_cons, performsWrite, hd]
        rcases ih db hrest hfresh with ⟨db2, h1, h2⟩
        exact ⟨db2, hrun.trans h1, by rw [hcount]; exact h2⟩
      | cons a t =>
        have hname : tableName (db.length + 1) ∉ tableNames db := hfresh _ (by omega)
        have hpipe := runPipeline_write llm
          { messages := hist, generated_data := Json.arr [] } db a t hd
        have hrun : runPipelines (llm :: rest) hist db =
            runPipelines rest hist (writeTable db (tableName (db.length + 1)) (a :: t)) := by
          simp only [runPipelines]
          rw [hpipe]
        have hnames1 : tableNames (writeTable db (tableName (db.length + 1)) (a :: t)) =
            tableNames db ++ [tableName (db.length + 1)] :=
          tableNames_writeTable_fresh _ hname
        have hlen1 : (writeTable db (tableName (db.length + 1)) (a :: t)).length =
            db.length + 1 := by
          have h := congrArg List.length hnames1
          rw [tableNames_length, List.length_append, tableNames_length] at h
          simpa using h
        have hfresh1 : ∀ j, (writeTable db (tableName (db.length + 1)) (a :: t)).length < j →
            tableName j ∉ tableNames (writeTable db (tableName (db.length + 1)) (a :: t)) := by
          intro j hj
          rw [hnames1]
          rw [hlen1] at hj
          intro hmem
          rcases List.mem_append.mp hmem with hmem2 | hmem2
          · exact hfresh j (by omega) hmem2
          · have heq := tableName_inj (List.mem_singleton.mp hmem2)
            omega
        rcases ih (writeTable db (tableName (db.length + 1)) (a :: t)) hrest hfresh1 with
          ⟨db2, h1, h2⟩
        refine ⟨db2, hrun.trans h1, ?_⟩
        rw [h2, hnames1, hlen1]
        have hcount : writeCount hist (llm :: rest) = writeCount hist rest + 1 := by
          simp [writeCount, List.filter_cons, performsWrite, hd]
        rw [hcount]
        rw [List.append_assoc]
        congr 1
        rw [List.range_succ_eq_map]
        rw [List.map_cons, List.map_map]
        have hfun : ((fun i => tableName (db.length + i + 1)) ∘ Nat.succ) =
            fun i => tableName (db.length + 1 + i + 1) := by
          funext i
          simp only [Function.comp]
          congr 1
          omega
        rw [hfun]
        rfl
    · have hpipe := runPipeline_parse_error llm
        { messages := hist, generated_data := Json.arr [] } db herr
      have hrun : runPipelines (llm :: rest) hist db = runPipelines rest hist db := by
        simp only [runPipelines]
        rw [hpipe]
      have hcount : writeCount hist (llm :: rest) = writeCount hist rest := by
        simp [writeCount, List.filter_cons, performsWrite, herr]
      rcases ih db hrest hfresh with ⟨db2, h1, h2⟩
      exact ⟨db2, hrun.trans h1, by rw [hcount]; exact h2⟩

/-- C2 amended witness: one writing invocation against an empty database,
storing the ordinary one-field record `\x7b"a": 1\x7d`, creates
`table_1`. -/
theorem claim2_amended_witness :
    ∃ db2, runPipelines [fun _ _ => Except.ok (Json.arr [Json.obj [("a", Json.num 1)]])]
        [] [] = .ok db2 ∧
      tableNames db2 = tableNames ([] : Db) ++
        (List.range (writeCount []
          [fun _ _ => Except.ok (Json.arr [Json.obj [("a", Json.num 1)]])])).map
          (fun i => tableName (([] : Db).length + i + 1)) :=
  claim2_amended [] [fun _ _ => Except.ok (Json.arr [Json.obj [("a", Json.num 1)]])] []
    (by
      intro l hl
      rw [List.mem_singleton] at hl
      subst hl
      exact Or.inl ⟨[Json.obj [("a", Json.num 1)]], rfl⟩)
    (by
      intro j hj hmem
      simp [tableNames] at hmem)
